import Mathlib

/-!
Shallow embedding of the room lifecycle and membership service
(`GameRoomService`, second revision in the source: `createPlayerFromUser`,
`createRoom`, `joinRoom`, `leaveRoom`, `kickPlayer`, `deleteRoom`,
`setPlayerReady`, `generateGameCode`).

Modelling conventions:
* Firestore timestamps are `Nat` values; `new Date()` is an explicit `now`
  argument threaded into each operation.
* `Math.random()` inside `generateGameCode` is an injected list of naturals,
  reduced modulo the alphabet size exactly as `Math.floor(random * chars.length)`
  produces an index in range.
* Firestore's `arrayUnion` / `arrayRemove` primitives are modelled on
  `List Player` with structural equality of elements, matching Firestore's
  deep element equality: `arrayRemove v` removes every element equal to `v`,
  `arrayUnion v` appends `v` iff no equal element is present.
* A thrown `Error` is an `Except.error` carrying a constructor named after the
  source's message string; `deleteDoc` is the `none` result of `leaveRoom`.
-/

/-- Game status values of the `GameStatus` union type. -/
inductive GameStatus
  | waiting
  | ready
  | starting
  | in_progress
  | paused
  | finished
  | cancelled
deriving DecidableEq, Repr

/-- Player record embedded in a room document. -/
structure Player where
  id : String
  name : String
  displayName : Option String
  email : Option String
  photoURL : Option String
  isHost : Bool
  joinedAt : Nat
  isReady : Bool
  isAnonymous : Bool
deriving DecidableEq, Repr

/-- Room settings record. -/
structure GameSettings where
  allowSpectators : Bool
  chatEnabled : Bool
  timeLimit : Nat
  difficultyLevel : String
deriving DecidableEq, Repr

/-- Optional settings supplied by the caller of `createRoom`
(the TS `Partial<GameSettings>` parameter). -/
structure SettingsInput where
  allowSpectators : Option Bool := none
  chatEnabled : Option Bool := none
  timeLimit : Option Nat := none
  difficultyLevel : Option String := none
deriving DecidableEq, Repr

/-- The room document persisted in the store. -/
structure GameRoom where
  name : String
  hostId : String
  players : List Player
  maxPlayers : Nat
  minPlayers : Nat
  status : GameStatus
  createdAt : Nat
  gameCode : String
  settings : GameSettings
deriving DecidableEq, Repr

/-- Firebase auth user as consumed by `createPlayerFromUser`. -/
structure User where
  uid : String
  displayName : Option String
  email : Option String
  photoURL : Option String
  isAnonymous : Bool
deriving DecidableEq, Repr

/-- Errors thrown by the service; each constructor is named after the source's
`throw new Error(...)` message: room not found, room full, game already
started, only the host can kick players, host cannot kick themselves, player
not found in room, only the host can delete the room, cannot delete room after
game has started. -/
inductive RoomError
  | roomNotFound
  | roomFull
  | alreadyStarted
  | onlyHostCanKick
  | hostCannotKickSelf
  | playerNotFoundInRoom
  | onlyHostCanDelete
  | cannotDeleteAfterStart
deriving DecidableEq, Repr

/-- Firestore `arrayRemove` on a players array: removes every element equal to
the given value. -/
def arrayRemove (l : List Player) (v : Player) : List Player :=
  l.filter (fun p => !(p == v))

/-- Firestore `arrayUnion` on a players array: appends the value iff no equal
element is already present. -/
def arrayUnion (l : List Player) (v : Player) : List Player :=
  if v ∈ l then l else l ++ [v]

/-- The code-character alphabet used by `generateGameCode`. -/
def gameCodeChars : List Char := "ABCDEFGHIJKLMNOPQRSTUVWXYZ0123456789".toList

/-- `generateGameCode`: builds a 6-character code, each character drawn from the
36-character alphabet by an index produced from the injected random source. -/
def generateGameCode (rand : List Nat) : String :=
  String.mk ((List.range 6).map (fun i =>
    gameCodeChars.getD (rand.getD i 0 % gameCodeChars.length) 'A'))

/-- `createPlayerFromUser(user, playerName, isHost)`: builds a player record
from the auth user, joined now, not ready. -/
def createPlayerFromUser (user : User) (playerName : String) (isHost : Bool)
    (now : Nat) : Player :=
  { id := user.uid
    name := playerName
    displayName := user.displayName
    email := user.email
    photoURL := user.photoURL
    isHost := isHost
    joinedAt := now
    isReady := false
    isAnonymous := user.isAnonymous }

/-- Default settings merged under the caller-supplied partial settings in
`createRoom`. -/
def mergeSettings (s : SettingsInput) : GameSettings :=
  { allowSpectators := s.allowSpectators.getD true
    chatEnabled := s.chatEnabled.getD true
    timeLimit := s.timeLimit.getD 60
    difficultyLevel := s.difficultyLevel.getD "normal" }

/-- `createRoom(user, playerName, roomName, settings)`: builds the room
document inserted by `addDoc` — creator as sole host player, `maxPlayers = 10`,
`minPlayers = 5`, status `waiting`, one freshly generated game code. -/
def createRoom (user : User) (playerName roomName : String)
    (sIn : SettingsInput) (now : Nat) (rand : List Nat) : GameRoom :=
  { name := roomName
    hostId := user.uid
    players := [createPlayerFromUser user playerName true now]
    maxPlayers := 10
    minPlayers := 5
    status := GameStatus.waiting
    createdAt := now
    gameCode := generateGameCode rand
    settings := mergeSettings sIn }

/-- Store-level `createRoom`: `addDoc` unconditionally appends the new room
document to the collection — there is no code-collision check or retry in the
source. -/
def createRoomStore (store : List GameRoom) (user : User)
    (playerName roomName : String) (sIn : SettingsInput) (now : Nat)
    (rand : List Nat) : List GameRoom :=
  store ++ [createRoom user playerName roomName sIn now rand]

/-- The player record written back on a rejoin: rebuilt from the auth user and
the new name, with `isReady`, `joinedAt` and `isHost` preserved from the
existing record. -/
def rejoinPlayer (user : User) (playerName : String) (now : Nat)
    (existingPlayer : Player) : Player :=
  { createPlayerFromUser user playerName existingPlayer.isHost now with
    isReady := existingPlayer.isReady
    joinedAt := existingPlayer.joinedAt }

/-- `joinRoom(roomId, user, playerName)` on an existing room document.
Mirrors the source order of checks: capacity (skipped for an existing member),
then the rejoin branch (`arrayRemove` of the old record followed by
`arrayUnion` of the updated record), then the started-game check, then the
`arrayUnion` append of a fresh non-host, not-ready player. -/
def joinRoom (room : GameRoom) (user : User) (playerName : String)
    (now : Nat) : Except RoomError GameRoom :=
  let existingPlayer? := room.players.find? (fun p => p.id == user.uid)
  if existingPlayer?.isNone ∧ room.maxPlayers ≤ room.players.length then
    Except.error RoomError.roomFull
  else
    match existingPlayer? with
    | some existingPlayer =>
        let newPlayers :=
          arrayUnion (arrayRemove room.players existingPlayer)
            (rejoinPlayer user playerName now existingPlayer)
        Except.ok { room with players := newPlayers }
    | none =>
        if room.status ≠ GameStatus.waiting ∧ room.status ≠ GameStatus.ready then
          Except.error RoomError.alreadyStarted
        else
          let newPlayers :=
            arrayUnion room.players (createPlayerFromUser user playerName false now)
          Except.ok { room with players := newPlayers }

/-- `leaveRoom(roomId, playerId)` on an existing room document.
`none` means the document was deleted; an absent player is a no-op.
A leaving host either deletes a sole-player room or hands `isHost` and
`hostId` to the first other player found in the array, rewriting the whole
players array. -/
def leaveRoom (room : GameRoom) (playerId : String) : Option GameRoom :=
  match room.players.find? (fun p => p.id == playerId) with
  | none => some room
  | some playerToRemove =>
    if playerToRemove.isHost then
      if room.players.length = 1 then
        none
      else
        match room.players.find? (fun p => p.id != playerId) with
        | some newHost =>
            let updatedPlayers :=
              (room.players.map
                (fun p => { p with isHost := p.id == newHost.id })).filter
                (fun p => p.id != playerId)
            some { room with hostId := newHost.id, players := updatedPlayers }
        | none => some room
    else
      some { room with players := arrayRemove room.players playerToRemove }

/-- `kickPlayer(roomId, hostId, playerIdToKick)` on an existing room document:
requester must be the host, may not target themselves, target must be present;
then the target's record is removed via `arrayRemove`. -/
def kickPlayer (room : GameRoom) (hostId playerIdToKick : String) :
    Except RoomError GameRoom :=
  if room.hostId ≠ hostId then
    Except.error RoomError.onlyHostCanKick
  else if hostId = playerIdToKick then
    Except.error RoomError.hostCannotKickSelf
  else
    match room.players.find? (fun p => p.id == playerIdToKick) with
    | none => Except.error RoomError.playerNotFoundInRoom
    | some playerToKick =>
        Except.ok { room with players := arrayRemove room.players playerToKick }

/-- `deleteRoom(roomId, hostId)` on an existing room document: requester must
be the host and the room must still be `waiting` or `ready`. -/
def deleteRoom (room : GameRoom) (hostId : String) : Except RoomError Unit :=
  if room.hostId ≠ hostId then
    Except.error RoomError.onlyHostCanDelete
  else if room.status ≠ GameStatus.waiting ∧ room.status ≠ GameStatus.ready then
    Except.error RoomError.cannotDeleteAfterStart
  else
    Except.ok ()

/-- The whole players array `setPlayerReady` computes from its read snapshot:
every record whose id matches gets the new `isReady`, the rest are copied. -/
def readyPlayers (room : GameRoom) (playerId : String) (r : Bool) : List Player :=
  room.players.map (fun p => if p.id == playerId then { p with isReady := r } else p)

/-- The players-array write that `updateDoc(roomRef, { players: ... })` issues:
it overwrites the whole `players` field of whatever the document currently is
with an array computed elsewhere. -/
def applyPlayersWrite (current : GameRoom) (ps : List Player) : GameRoom :=
  { current with players := ps }

/-- `setPlayerReady(roomId, playerId, isReady)` on an existing room document:
writes the remapped players array, then recomputes `allReady` and
`enoughPlayers` and applies the boundary status transition against the
snapshot status. -/
def setPlayerReady (room : GameRoom) (playerId : String) (r : Bool) : GameRoom :=
  let updatedPlayers := readyPlayers room playerId r
  let allReady := updatedPlayers.all (fun p => p.isReady)
  let enoughPlayers := decide (room.minPlayers ≤ updatedPlayers.length)
  if allReady && enoughPlayers && room.status == GameStatus.waiting then
    { room with players := updatedPlayers, status := GameStatus.ready }
  else if (!allReady || !enoughPlayers) && room.status == GameStatus.ready then
    { room with players := updatedPlayers, status := GameStatus.waiting }
  else
    { room with players := updatedPlayers }

/-- Store-level `setPlayerReady`: a missing document throws room-not-found,
an existing one is updated and never throws. -/
def setPlayerReadyStore (room? : Option GameRoom) (playerId : String)
    (r : Bool) : Except RoomError GameRoom :=
  match room? with
  | none => Except.error RoomError.roomNotFound
  | some room => Except.ok (setPlayerReady room playerId r)

/-- `allReady` as recomputed by `setPlayerReady` after the per-player update. -/
def allReadyAfter (room : GameRoom) (playerId : String) (r : Bool) : Bool :=
  (readyPlayers room playerId r).all (fun p => p.isReady)

/-- Quorum (`enoughPlayers`) as recomputed by `setPlayerReady` after the
per-player update. -/
def quorumAfter (room : GameRoom) (playerId : String) (r : Bool) : Bool :=
  decide (room.minPlayers ≤ (readyPlayers room playerId r).length)

/-- Room well-formedness: nonempty player list with pairwise-distinct ids,
exactly one `isHost` record, and that record's id is the room's `hostId`.
The first and third conjuncts are the spec's invariant; the id-distinctness
and `hostId` link are the auxiliary strengthening the code maintains. -/
def RoomInv (room : GameRoom) : Prop :=
  room.players ≠ [] ∧
  (room.players.map Player.id).Nodup ∧
  room.players.countP (fun p => p.isHost) = 1 ∧
  ∀ p ∈ room.players, p.isHost = true → p.id = room.hostId

/-! Helper lemmas about players lists. -/

/-- In a list whose ids are pairwise distinct, members are determined by id. -/
theorem player_eq_of_id_eq {l : List Player} (hnd : (l.map Player.id).Nodup)
    {a b : Player} (ha : a ∈ l) (hb : b ∈ l) (hid : a.id = b.id) : a = b :=
  List.inj_on_of_nodup_map hnd ha hb hid

/-- Removing one member by structural equality from an id-distinct list is a
permutation fact: the list is a permutation of that member consed onto the
filtered remainder. -/
theorem perm_cons_filter_ne {l : List Player} (hnd : (l.map Player.id).Nodup)
    {ep : Player} (hmem : ep ∈ l) :
    l.Perm (ep :: l.filter (fun p => !(p == ep))) := by
  induction l with
  | nil => cases hmem
  | cons a t ih =>
    rcases List.mem_cons.mp hmem with rfl | hmt
    · have hfilter : t.filter (fun p => !(p == ep)) = t := by
        apply List.filter_eq_self.mpr
        intro x hx
        have hne : x.id ≠ ep.id := by
          intro hxa
          have : ep.id ∈ t.map Player.id := hxa ▸ List.mem_map_of_mem Player.id hx
          simp only [List.map_cons, List.nodup_cons] at hnd
          exact hnd.1 this
        simp only [Bool.not_eq_true', beq_eq_false_iff_ne, ne_eq]
        intro hxe
        exact hne (by rw [hxe])
      rw [List.filter_cons_of_neg (by simp), hfilter]
    · have hne : ¬(a == ep) = true := by
        simp only [beq_iff_eq]
        rintro rfl
        have : a.id ∈ t.map Player.id := List.mem_map_of_mem Player.id hmt
        simp only [List.map_cons, List.nodup_cons] at hnd
        exact hnd.1 this
      have hnd' : (t.map Player.id).Nodup := by
        simp only [List.map_cons, List.nodup_cons] at hnd
        exact hnd.2
      rw [List.filter_cons_of_pos (by simpa using hne)]
      have h1 : (a :: t).Perm (a :: ep :: t.filter (fun p => !(p == ep))) :=
        List.Perm.cons a (ih hnd' hmt)
      exact h1.trans (List.Perm.swap ep a _)

/-- In an id-distinct list, exactly one member carries the id of any given
member. -/
theorem countP_id_eq_one {l : List Player} (hnd : (l.map Player.id).Nodup)
    {a : Player} (ha : a ∈ l) :
    l.countP (fun p => p.id == a.id) = 1 := by
  have h1 : l.countP (fun p => p.id == a.id) = (l.map Player.id).count a.id := by
    rw [List.count, List.countP_map]
    rfl
  rw [h1]
  exact List.count_eq_one_of_mem hnd (List.mem_map_of_mem Player.id ha)

/-- Unpack a successful id search: the witness is a member and carries the id. -/
theorem find?_id_spec {l : List Player} {pid : String} {ep : Player}
    (h : l.find? (fun p => p.id == pid) = some ep) :
    ep ∈ l ∧ ep.id = pid :=
  ⟨List.mem_of_find?_eq_some h, by
    have := List.find?_some h
    simpa [beq_iff_eq] using this⟩

/-- Unpack a failed id search: no member carries the id. -/
theorem find?_id_none {l : List Player} {pid : String}
    (h : l.find? (fun p => p.id == pid) = none) :
    ∀ p ∈ l, p.id ≠ pid := by
  intro p hp
  have := List.find?_eq_none.mp h p hp
  simpa [beq_iff_eq] using this

/-! Normal forms of the operations under their branch conditions. -/

/-- A join by a genuinely new identity, with room below capacity and in a
joinable status, appends a fresh non-host not-ready player. -/
theorem joinRoom_new_eq (room : GameRoom) (u : User) (nm : String) (t : Nat)
    (hfind : room.players.find? (fun p => p.id == u.uid) = none)
    (hcap : room.players.length < room.maxPlayers)
    (hstat : room.status = GameStatus.waiting ∨ room.status = GameStatus.ready) :
    joinRoom room u nm t = Except.ok { room with
      players := room.players ++ [createPlayerFromUser u nm false t] } := by
  have hnotmem : createPlayerFromUser u nm false t ∉ room.players := by
    intro hmem
    exact find?_id_none hfind _ hmem rfl
  have hstat' : ¬(room.status ≠ GameStatus.waiting ∧ room.status ≠ GameStatus.ready) := by
    rcases hstat with h | h <;> simp [h]
  simp only [joinRoom, hfind, Option.isNone_none]
  rw [if_neg (by intro hc; exact Nat.not_le.mpr hcap hc.2)]
  rw [if_neg hstat']
  simp only [arrayUnion, if_neg hnotmem]

/-- A join by an identity already present rewrites the players array to the
filtered remainder with the refreshed record appended, with no capacity or
status condition. -/
theorem joinRoom_rejoin_eq (room : GameRoom) (u : User) (nm : String) (t : Nat)
    (ep : Player) (hnd : (room.players.map Player.id).Nodup)
    (hfind : room.players.find? (fun p => p.id == u.uid) = some ep) :
    joinRoom room u nm t = Except.ok { room with
      players :=
        room.players.filter (fun p => !(p == ep)) ++ [rejoinPlayer u nm t ep] } := by
  obtain ⟨hmem, hid⟩ := find?_id_spec hfind
  have hnotmem : rejoinPlayer u nm t ep ∉
      room.players.filter (fun p => !(p == ep)) := by
    intro hmem'
    obtain ⟨hin, hne⟩ := List.mem_filter.mp hmem'
    have heq : rejoinPlayer u nm t ep = ep :=
      player_eq_of_id_eq hnd hin hmem (by rw [hid]; rfl)
    simp [heq] at hne
  simp only [joinRoom, hfind, Option.isNone_some]
  rw [if_neg (by intro hc; exact Bool.false_ne_true hc.1)]
  simp only [arrayRemove, arrayUnion, if_neg hnotmem]

/-- Leaving a room one is not in changes nothing. -/
theorem leaveRoom_absent_eq (room : GameRoom) (pid : String)
    (hfind : room.players.find? (fun p => p.id == pid) = none) :
    leaveRoom room pid = some room := by
  simp only [leaveRoom, hfind]

/-- A sole host leaving deletes the room. -/
theorem leaveRoom_sole_eq (room : GameRoom) (pid : String) (ep : Player)
    (hfind : room.players.find? (fun p => p.id == pid) = some ep)
    (hh : ep.isHost = true) (hlen : room.players.length = 1) :
    leaveRoom room pid = none := by
  simp only [leaveRoom, hfind, hh, hlen, if_true]

/-- A host leaving a multi-player room rewrites the players array, marking as
host exactly the records whose id is the first other player's id, and updates
`hostId` to that id. -/
theorem leaveRoom_transfer_eq (room : GameRoom) (pid : String) (ep nh : Player)
    (hfind : room.players.find? (fun p => p.id == pid) = some ep)
    (hh : ep.isHost = true) (hlen : room.players.length ≠ 1)
    (hnh : room.players.find? (fun p => p.id != pid) = some nh) :
    leaveRoom room pid = some { room with
      hostId := nh.id
      players :=
        (room.players.map (fun p => { p with isHost := p.id == nh.id })).filter
          (fun p => p.id != pid) } := by
  simp only [leaveRoom, hfind, hh, hnh, if_true, if_neg hlen]

/-- A non-host leaving is a plain `arrayRemove` of their record. -/
theorem leaveRoom_nonhost_eq (room : GameRoom) (pid : String) (ep : Player)
    (hfind : room.players.find? (fun p => p.id == pid) = some ep)
    (hh : ep.isHost = false) :
    leaveRoom room pid =
      some { room with players := room.players.filter (fun p => !(p == ep)) } := by
  simp only [leaveRoom, hfind, hh, arrayRemove, Bool.false_eq_true, if_false]

/-- A valid kick removes the target's record. -/
theorem kickPlayer_ok_eq (room : GameRoom) (rid tid : String) (tp : Player)
    (hhost : room.hostId = rid) (hne : rid ≠ tid)
    (hfind : room.players.find? (fun p => p.id == tid) = some tp) :
    kickPlayer room rid tid =
      Except.ok { room with players := room.players.filter (fun p => !(p == tp)) } := by
  simp only [kickPlayer, hfind, arrayRemove]
  rw [if_neg (by simp [hhost]), if_neg hne]

/-- The ready-toggle always writes back exactly the remapped players array. -/
theorem setPlayerReady_players_eq (room : GameRoom) (pid : String) (r : Bool) :
    (setPlayerReady room pid r).players = readyPlayers room pid r := by
  simp only [setPlayerReady]
  split
  · rfl
  · split <;> rfl

/-- The ready-toggle never touches `hostId`. -/
theorem setPlayerReady_hostId_eq (room : GameRoom) (pid : String) (r : Bool) :
    (setPlayerReady room pid r).hostId = room.hostId := by
  simp only [setPlayerReady]
  split
  · rfl
  · split <;> rfl

/-- The per-player remap preserves every id. -/
theorem readyPlayers_map_id (room : GameRoom) (pid : String) (r : Bool) :
    (readyPlayers room pid r).map Player.id = room.players.map Player.id := by
  simp only [readyPlayers, List.map_map]
  apply List.map_congr_left
  intro p _
  by_cases h : (p.id == pid) = true <;> simp [Function.comp, h]

/-- The per-player remap preserves the host count. -/
theorem readyPlayers_countP_isHost (room : GameRoom) (pid : String) (r : Bool) :
    (readyPlayers room pid r).countP (fun p => p.isHost) =
      room.players.countP (fun p => p.isHost) := by
  simp only [readyPlayers, List.countP_map]
  apply List.countP_congr
  intro p _
  by_cases h : (p.id == pid) = true <;> simp [Function.comp, h]

/-! Invariant preservation, one lemma per mutation shape. -/

/-- Removing a non-host member keeps the invariant. -/
theorem roomInv_remove_nonhost (room : GameRoom) (hinv : RoomInv room)
    {ep : Player} (hmem : ep ∈ room.players) (hh : ep.isHost = false) :
    RoomInv { room with players := room.players.filter (fun p => !(p == ep)) } := by
  obtain ⟨hne, hnd, hcount, hlink⟩ := hinv
  have hperm := perm_cons_filter_ne hnd hmem
  have hcount' : (room.players.filter (fun p => !(p == ep))).countP
      (fun p => p.isHost) = 1 := by
    have := hperm.countP_eq (fun p => p.isHost)
    rw [List.countP_cons] at this
    simp [hh] at this
    omega
  refine ⟨?_, ?_, hcount', ?_⟩
  · have hpos : 0 < (room.players.filter (fun p => !(p == ep))).countP
        (fun p => p.isHost) := by omega
    obtain ⟨a, ha, _⟩ := List.countP_pos_iff.mp hpos
    exact List.ne_nil_of_mem ha
  · exact hnd.sublist (List.Sublist.map Player.id (List.filter_sublist _))
  · intro p hp hph
    exact hlink p (List.mem_of_mem_filter hp) hph

/-- Appending a fresh non-host player with an unused id keeps the invariant. -/
theorem roomInv_append_nonhost (room : GameRoom) (hinv : RoomInv room)
    {q : Player} (hq : q.isHost = false)
    (hid : ∀ p ∈ room.players, p.id ≠ q.id) :
    RoomInv { room with players := room.players ++ [q] } := by
  obtain ⟨hne, hnd, hcount, hlink⟩ := hinv
  refine ⟨by simp, ?_, ?_, ?_⟩
  · rw [List.map_append]
    refine List.Nodup.append hnd (by simp) ?_
    intro a ha hb
    obtain ⟨p, hp, rfl⟩ := List.mem_map.mp ha
    simp only [List.map_cons, List.map_nil, List.mem_singleton] at hb
    exact hid p hp hb
  · rw [List.countP_append, hcount]
    simp [hq]
  · intro p hp hph
    rcases List.mem_append.mp hp with h | h
    · exact hlink p h hph
    · simp only [List.mem_singleton] at h
      subst h
      rw [hq] at hph
      cases hph

/-- Replacing a member by a record with the same id and the same host flag
keeps the invariant. -/
theorem roomInv_rejoin (room : GameRoom) (hinv : RoomInv room)
    {ep q : Player} (hmem : ep ∈ room.players)
    (hqid : q.id = ep.id) (hqh : q.isHost = ep.isHost) :
    RoomInv { room with
      players := room.players.filter (fun p => !(p == ep)) ++ [q] } := by
  obtain ⟨hne, hnd, hcount, hlink⟩ := hinv
  have hperm := perm_cons_filter_ne hnd hmem
  have hcnt := hperm.countP_eq (fun p => p.isHost)
  rw [List.countP_cons, hcount] at hcnt
  refine ⟨by simp, ?_, ?_, ?_⟩
  · rw [List.map_append]
    refine List.Nodup.append
      (hnd.sublist (List.Sublist.map Player.id (List.filter_sublist _))) (by simp) ?_
    intro a ha hb
    obtain ⟨p, hp, rfl⟩ := List.mem_map.mp ha
    simp only [List.map_cons, List.map_nil, List.mem_singleton] at hb
    obtain ⟨hpmem, hpne⟩ := List.mem_filter.mp hp
    have : p = ep := player_eq_of_id_eq hnd hpmem hmem (by rw [hb, hqid])
    simp [this] at hpne
  · rw [List.countP_append]
    simp only [List.countP_cons, List.countP_nil, hqh]
    omega
  · intro p hp hph
    rcases List.mem_append.mp hp with h | h
    · exact hlink p (List.mem_of_mem_filter h) hph
    · simp only [List.mem_singleton] at h
      subst h
      rw [hqid]
      apply hlink ep hmem
      rw [← hqh]
      exact hph

/-- The host-transfer rewrite keeps the invariant: exactly the records carrying
the new host's id are marked host, and the new `hostId` matches. -/
theorem roomInv_transfer (room : GameRoom) (hinv : RoomInv room)
    {pid : String} {nh : Player} (hnh : nh ∈ room.players) (hnhid : nh.id ≠ pid) :
    RoomInv { room with
      hostId := nh.id
      players :=
        (room.players.map (fun p => { p with isHost := p.id == nh.id })).filter
          (fun p => p.id != pid) } := by
  obtain ⟨hne, hnd, hcount, hlink⟩ := hinv
  have hmapid : (room.players.map
      (fun p => { p with isHost := p.id == nh.id })).map Player.id =
      room.players.map Player.id := by
    rw [List.map_map]
    exact List.map_congr_left (fun a _ => rfl)
  have hcnt : ((room.players.map
      (fun p => { p with isHost := p.id == nh.id })).filter
        (fun p => p.id != pid)).countP (fun p => p.isHost) = 1 := by
    rw [List.countP_filter, List.countP_map]
    refine Eq.trans (List.countP_congr ?_) (countP_id_eq_one hnd hnh)
    intro p _
    show ((p.id == nh.id) && (p.id != pid)) = true ↔ (p.id == nh.id) = true
    constructor
    · intro h
      exact Bool.and_elim_left h
    · intro h
      have hpe : p.id = nh.id := by simpa [beq_iff_eq] using h
      simp [hpe, hnhid]
  refine ⟨?_, ?_, hcnt, ?_⟩
  · have hpos : 0 < ((room.players.map
        (fun p => { p with isHost := p.id == nh.id })).filter
          (fun p => p.id != pid)).countP (fun p => p.isHost) := by omega
    obtain ⟨a, ha, _⟩ := List.countP_pos_iff.mp hpos
    exact List.ne_nil_of_mem ha
  · refine List.Nodup.sublist ?_ (hmapid ▸ hnd)
    exact List.Sublist.map Player.id (List.filter_sublist _)
  · intro p hp hph
    obtain ⟨hpm, hppid⟩ := List.mem_filter.mp hp
    obtain ⟨p0, _, rfl⟩ := List.mem_map.mp hpm
    simpa [beq_iff_eq] using hph

/-- A freshly created room satisfies the invariant. -/
theorem roomInv_createRoom (u : User) (nm rn : String) (sIn : SettingsInput)
    (t : Nat) (rand : List Nat) : RoomInv (createRoom u nm rn sIn t rand) := by
  refine ⟨by simp [createRoom], by simp [createRoom], ?_, ?_⟩
  · simp [createRoom, createPlayerFromUser, List.countP_cons]
  · intro p hp _
    simp only [createRoom, List.mem_singleton] at hp
    subst hp
    rfl

/-- The ready-toggle keeps the invariant. -/
theorem roomInv_setPlayerReady (room : GameRoom) (hinv : RoomInv room)
    (pid : String) (r : Bool) : RoomInv (setPlayerReady room pid r) := by
  obtain ⟨hne, hnd, hcount, hlink⟩ := hinv
  refine ⟨?_, ?_, ?_, ?_⟩
  · rw [setPlayerReady_players_eq]
    simp only [readyPlayers, ne_eq, List.map_eq_nil_iff]
    exact hne
  · rw [setPlayerReady_players_eq, readyPlayers_map_id]
    exact hnd
  · rw [setPlayerReady_players_eq, readyPlayers_countP_isHost]
    exact hcount
  · intro p hp hph
    rw [setPlayerReady_players_eq] at hp
    rw [setPlayerReady_hostId_eq]
    simp only [readyPlayers, List.mem_map] at hp
    obtain ⟨p0, hp0, rfl⟩ := hp
    by_cases h : (p0.id == pid) = true
    · simp only [if_pos h] at hph ⊢
      exact hlink p0 hp0 hph
    · simp only [if_neg h] at hph ⊢
      exact hlink p0 hp0 hph

/-- Degenerate host-leave branch: the host leaves a multi-player room but no
other id exists; the source's `if (newHost)` guard then performs no update. -/
theorem leaveRoom_noNewHost_eq (room : GameRoom) (pid : String) (ep : Player)
    (hfind : room.players.find? (fun p => p.id == pid) = some ep)
    (hh : ep.isHost = true) (hlen : room.players.length ≠ 1)
    (hnh : room.players.find? (fun p => p.id != pid) = none) :
    leaveRoom room pid = some room := by
  simp only [leaveRoom, hfind, hh, hnh, if_true, if_neg hlen]

/-! Concrete fixtures used by witnesses and counterexamples. -/

/-- Minimal player record with the given id, host flag, join time, readiness. -/
def mkPlayer (i : String) (h : Bool) (j : Nat) (r : Bool) : Player :=
  { id := i, name := i, displayName := none, email := none, photoURL := none,
    isHost := h, joinedAt := j, isReady := r, isAnonymous := false }

/-- Minimal auth user with the given uid. -/
def mkUser (i : String) : User :=
  { uid := i, displayName := none, email := none, photoURL := none,
    isAnonymous := false }

/-- The default settings record. -/
def defaultSettings : GameSettings :=
  { allowSpectators := true, chatEnabled := true, timeLimit := 60,
    difficultyLevel := "normal" }

/-- Room fixture with the service defaults `maxPlayers = 10`, `minPlayers = 5`. -/
def mkRoom (host : String) (ps : List Player) (st : GameStatus) : GameRoom :=
  { name := "room", hostId := host, players := ps, maxPlayers := 10,
    minPlayers := 5, status := st, createdAt := 0, gameCode := "AAAAAA",
    settings := defaultSettings }

/-- Five-player waiting room in which everyone but E is ready. -/
def roomFive : GameRoom :=
  mkRoom "A" [mkPlayer "A" true 0 true, mkPlayer "B" false 1 true,
    mkPlayer "C" false 2 true, mkPlayer "D" false 3 true,
    mkPlayer "E" false 4 false] GameStatus.waiting

/-- Three-player waiting room with host A, then B, then C in join order. -/
def roomABC : GameRoom :=
  mkRoom "A" [mkPlayer "A" true 0 false, mkPlayer "B" false 1 false,
    mkPlayer "C" false 2 false] GameStatus.waiting

/-- Two-player room whose match is already running. -/
def roomStarted : GameRoom :=
  mkRoom "H" [mkPlayer "H" true 0 true, mkPlayer "B" false 1 true]
    GameStatus.in_progress

/-- Full room: ten players, at the `maxPlayers` capacity. -/
def roomTen : GameRoom :=
  mkRoom "P0" [mkPlayer "P0" true 0 false, mkPlayer "P1" false 1 false,
    mkPlayer "P2" false 2 false, mkPlayer "P3" false 3 false,
    mkPlayer "P4" false 4 false, mkPlayer "P5" false 5 false,
    mkPlayer "P6" false 6 false, mkPlayer "P7" false 7 false,
    mkPlayer "P8" false 8 false, mkPlayer "P9" false 9 false]
    GameStatus.waiting

/-- Two-player waiting room with nobody ready, for the concurrency scenario. -/
def roomAB : GameRoom :=
  mkRoom "A" [mkPlayer "A" true 0 false, mkPlayer "B" false 1 false]
    GameStatus.waiting

/-- C1: for every existing room, `setPlayerReady` writes back exactly the
players array with the named player's `isReady` set, and applies the boundary
transition: from `waiting` the status becomes `ready` iff afterwards every
player is ready and the player count meets `minPlayers`, from `ready` it falls
back to `waiting` iff that conjunction fails, and every other status
(`starting`, `in_progress`, `paused`, `finished`, `cancelled`) is left
unchanged. -/
theorem C1_setPlayerReady_boundary (room : GameRoom) (pid : String) (r : Bool) :
    (setPlayerReady room pid r).players = readyPlayers room pid r ∧
    (room.status = GameStatus.waiting →
      (setPlayerReady room pid r).status =
        (if (allReadyAfter room pid r && quorumAfter room pid r) = true then
          GameStatus.ready else GameStatus.waiting)) ∧
    (room.status = GameStatus.ready →
      (setPlayerReady room pid r).status =
        (if (allReadyAfter room pid r && quorumAfter room pid r) = true then
          GameStatus.ready else GameStatus.waiting)) ∧
    (room.status ≠ GameStatus.waiting → room.status ≠ GameStatus.ready →
      (setPlayerReady room pid r).status = room.status) := by
  refine ⟨setPlayerReady_players_eq room pid r, ?_, ?_, ?_⟩
  · intro hw
    simp only [setPlayerReady, allReadyAfter, quorumAfter, hw]
    rcases Bool.eq_false_or_eq_true
        ((readyPlayers room pid r).all (fun p => p.isReady)) with hA | hA <;>
      rcases Bool.eq_false_or_eq_true
          (decide (room.minPlayers ≤ (readyPlayers room pid r).length)) with hQ | hQ <;>
        simp [hA, hQ]
  · intro hr
    simp only [setPlayerReady, allReadyAfter, quorumAfter, hr]
    rcases Bool.eq_false_or_eq_true
        ((readyPlayers room pid r).all (fun p => p.isReady)) with hA | hA <;>
      rcases Bool.eq_false_or_eq_true
          (decide (room.minPlayers ≤ (readyPlayers room pid r).length)) with hQ | hQ <;>
        simp [hA, hQ]
  · intro h1 h2
    have e1 : (room.status == GameStatus.waiting) = false :=
      beq_eq_false_iff_ne.mpr h1
    have e2 : (room.status == GameStatus.ready) = false :=
      beq_eq_false_iff_ne.mpr h2
    simp [setPlayerReady, e1, e2]

/-- Witness for C1: in the five-player waiting room, marking E ready makes
every player ready with quorum met, and the status flips to `ready`. -/
theorem C1_witness :
    (setPlayerReady roomFive "E" true).players = readyPlayers roomFive "E" true ∧
    (setPlayerReady roomFive "E" true).status =
      (if (allReadyAfter roomFive "E" true && quorumAfter roomFive "E" true) = true
        then GameStatus.ready else GameStatus.waiting) :=
  ⟨(C1_setPlayerReady_boundary roomFive "E" true).1,
   (C1_setPlayerReady_boundary roomFive "E" true).2.1 rfl⟩

/-- C8: `kickPlayer` fails with the only-host-can-kick error when the requester
is not `hostId`; fails with the cannot-kick-self error when the (host)
requester targets themselves; fails with the player-not-found error when the
target id is absent; and otherwise removes exactly the target's record, leaving
`hostId` and every other player's membership untouched. -/
theorem C8_kickPlayer_spec (room : GameRoom) (rid tid : String) :
    (room.hostId ≠ rid →
      kickPlayer room rid tid = Except.error RoomError.onlyHostCanKick) ∧
    (room.hostId = rid → rid = tid →
      kickPlayer room rid tid = Except.error RoomError.hostCannotKickSelf) ∧
    (room.hostId = rid → rid ≠ tid →
      room.players.find? (fun p => p.id == tid) = none →
      kickPlayer room rid tid = Except.error RoomError.playerNotFoundInRoom) ∧
    (∀ tp, room.hostId = rid → rid ≠ tid →
      room.players.find? (fun p => p.id == tid) = some tp →
      (room.players.map Player.id).Nodup →
      ∃ r', kickPlayer room rid tid = Except.ok r' ∧
        r'.hostId = room.hostId ∧
        r'.players = room.players.filter (fun p => !(p.id == tid)) ∧
        ∀ q ∈ room.players, q.id ≠ tid → q ∈ r'.players) := by
  refine ⟨?_, ?_, ?_, ?_⟩
  · intro h
    simp only [kickPlayer, if_pos h]
  · intro h1 h2
    simp only [kickPlayer, if_pos h2]
    rw [if_neg (show ¬room.hostId ≠ rid from fun hc => hc h1)]
  · intro h1 h2 h3
    simp only [kickPlayer, if_neg h2, h3]
    rw [if_neg (show ¬room.hostId ≠ rid from fun hc => hc h1)]
  · intro tp h1 h2 hfind hnd
    obtain ⟨hmem, hid⟩ := find?_id_spec hfind
    have hfe : room.players.filter (fun p => !(p == tp)) =
        room.players.filter (fun p => !(p.id == tid)) := by
      apply List.filter_congr
      intro a ha
      by_cases hatp : a = tp
      · subst hatp
        simp [hid]
      · have haid : a.id ≠ tid := by
          intro hc
          exact hatp (player_eq_of_id_eq hnd ha hmem (by rw [hc, hid]))
        simp [hatp, haid]
    refine ⟨{ room with players := room.players.filter (fun p => !(p == tp)) },
      kickPlayer_ok_eq room rid tid tp h1 h2 hfind, rfl, hfe, ?_⟩
    intro q hq hqid
    apply List.mem_filter.mpr
    refine ⟨hq, ?_⟩
    simp only [Bool.not_eq_true', beq_eq_false_iff_ne, ne_eq]
    intro hc
    exact hqid (by rw [hc, hid])

/-- Witness for C8: in the running two-player room, H kicks B successfully
with B's record removed and H untouched, a kick by non-host B fails with the
only-host error, and H kicking H fails with the self-kick error. -/
theorem C8_witness :
    (∃ r', kickPlayer roomStarted "H" "B" = Except.ok r' ∧
      r'.hostId = roomStarted.hostId ∧
      r'.players = roomStarted.players.filter (fun p => !(p.id == "B")) ∧
      ∀ q ∈ roomStarted.players, q.id ≠ "B" → q ∈ r'.players) ∧
    kickPlayer roomStarted "B" "H" = Except.error RoomError.onlyHostCanKick ∧
    kickPlayer roomStarted "H" "H" = Except.error RoomError.hostCannotKickSelf :=
  ⟨(C8_kickPlayer_spec roomStarted "H" "B").2.2.2 (mkPlayer "B" false 1 true)
      rfl (by decide) (by decide) (by decide),
   (C8_kickPlayer_spec roomStarted "B" "H").1 (by decide),
   (C8_kickPlayer_spec roomStarted "H" "H").2.1 rfl rfl⟩

/-- C3: every operation preserves room well-formedness — a persisted room keeps
a nonempty player list with exactly one `isHost = true` record (`createRoom`
establishes it; `joinRoom`, `leaveRoom`, `kickPlayer` and `setPlayerReady`
preserve it on every room they persist, and `leaveRoom` deletes rather than
persists a room that would drop to zero players). -/
theorem C3_invariant_preserved (room : GameRoom) (hinv : RoomInv room)
    (u : User) (nm rn : String) (sIn : SettingsInput) (t : Nat)
    (rand : List Nat) (pid rid tid : String) (r : Bool) :
    RoomInv (createRoom u nm rn sIn t rand) ∧
    (∀ r', joinRoom room u nm t = Except.ok r' → RoomInv r') ∧
    (∀ r', leaveRoom room pid = some r' → RoomInv r') ∧
    (∀ r', kickPlayer room rid tid = Except.ok r' → RoomInv r') ∧
    RoomInv (setPlayerReady room pid r) := by
  obtain ⟨hne, hnd, hcount, hlink⟩ := hinv
  refine ⟨roomInv_createRoom u nm rn sIn t rand, ?_, ?_, ?_,
    roomInv_setPlayerReady room ⟨hne, hnd, hcount, hlink⟩ pid r⟩
  · intro r' h
    cases hfind : room.players.find? (fun p => p.id == u.uid) with
    | some ep =>
        rw [joinRoom_rejoin_eq room u nm t ep hnd hfind] at h
        cases h
        obtain ⟨hmem, hid⟩ := find?_id_spec hfind
        exact roomInv_rejoin room ⟨hne, hnd, hcount, hlink⟩ hmem
          (by rw [hid]; rfl) rfl
    | none =>
        simp only [joinRoom, hfind] at h
        split at h
        · cases h
        · split at h
          · cases h
          · cases h
            have hnotmem : createPlayerFromUser u nm false t ∉ room.players := by
              intro hmem
              exact find?_id_none hfind _ hmem rfl
            simp only [arrayUnion, if_neg hnotmem]
            exact roomInv_append_nonhost room ⟨hne, hnd, hcount, hlink⟩ rfl
              (fun p hp => find?_id_none hfind p hp)
  · intro r' h
    cases hfind : room.players.find? (fun p => p.id == pid) with
    | none =>
        rw [leaveRoom_absent_eq room pid hfind] at h
        cases h
        exact ⟨hne, hnd, hcount, hlink⟩
    | some ep =>
        obtain ⟨hmem, hid⟩ := find?_id_spec hfind
        by_cases hh : ep.isHost = true
        · by_cases hlen : room.players.length = 1
          · rw [leaveRoom_sole_eq room pid ep hfind hh hlen] at h
            cases h
          · cases hnh : room.players.find? (fun p => p.id != pid) with
            | none =>
                rw [leaveRoom_noNewHost_eq room pid ep hfind hh hlen hnh] at h
                cases h
                exact ⟨hne, hnd, hcount, hlink⟩
            | some nh =>
                rw [leaveRoom_transfer_eq room pid ep nh hfind hh hlen hnh] at h
                cases h
                have hnhmem : nh ∈ room.players := List.mem_of_find?_eq_some hnh
                have hnhid : nh.id ≠ pid := by
                  have := List.find?_some hnh
                  simpa using this
                exact roomInv_transfer room ⟨hne, hnd, hcount, hlink⟩ hnhmem hnhid
        · have hh' : ep.isHost = false := by
            revert hh
            cases ep.isHost <;> simp
          rw [leaveRoom_nonhost_eq room pid ep hfind hh'] at h
          cases h
          exact roomInv_remove_nonhost room ⟨hne, hnd, hcount, hlink⟩ hmem hh'
  · intro r' h
    simp only [kickPlayer] at h
    split at h
    · cases h
    · split at h
      · cases h
      · split at h
        · cases h
        · next hkneq hscrut tp hfind =>
          cases h
          rename_i hhostne
          have hhosteq : room.hostId = rid := of_not_not hhostne
          obtain ⟨hmem, hid⟩ := find?_id_spec hfind
          have hth : tp.isHost = false := by
            by_contra hth0
            have hth' : tp.isHost = true := by
              revert hth0
              cases tp.isHost <;> simp
            have h1 : tp.id = room.hostId := hlink tp hmem hth'
            apply hkneq
            rw [← hid, h1, hhosteq]
          exact roomInv_remove_nonhost room ⟨hne, hnd, hcount, hlink⟩ hmem hth

/-- Witness for C3: the invariant facts instantiated on the three-player room
with a concrete join, leave, kick and ready-toggle. -/
theorem C3_witness :
    RoomInv (createRoom (mkUser "D") "D" "x" {} 3 []) ∧
    (∀ r', joinRoom roomABC (mkUser "D") "D" 3 = Except.ok r' → RoomInv r') ∧
    (∀ r', leaveRoom roomABC "B" = some r' → RoomInv r') ∧
    (∀ r', kickPlayer roomABC "A" "C" = Except.ok r' → RoomInv r') ∧
    RoomInv (setPlayerReady roomABC "B" true) :=
  C3_invariant_preserved roomABC (by unfold RoomInv; decide) (mkUser "D") "D" "x"
    {} 3 [] "B" "A" "C" true

/-- Removing a present member strictly shrinks the players array. -/
theorem length_arrayRemove_lt {l : List Player} {ep : Player} (hmem : ep ∈ l) :
    (arrayRemove l ep).length < l.length := by
  induction l with
  | nil => cases hmem
  | cons a t ih =>
    by_cases hae : a = ep
    · subst hae
      have h1 : (arrayRemove (a :: t) a).length = (arrayRemove t a).length := by
        rw [arrayRemove, arrayRemove, List.filter_cons_of_neg (by simp)]
      have h2 := List.length_filter_le (fun p => !(p == a)) t
      rw [h1, arrayRemove]
      simp only [List.length_cons]
      omega
    · rcases List.mem_cons.mp hmem with h | hmt
      · exact absurd h (fun hh => hae hh.symm)
      · have h1 : (arrayRemove (a :: t) ep).length = (arrayRemove t ep).length + 1 := by
          rw [arrayRemove, arrayRemove,
            List.filter_cons_of_pos (by simp [beq_eq_false_iff_ne.mpr hae])]
          rfl
        have h2 := ih hmt
        rw [h1]
        simp only [List.length_cons]
        omega

/-- Adding to the players array grows it by at most one element. -/
theorem length_arrayUnion_le (l : List Player) (v : Player) :
    (arrayUnion l v).length ≤ l.length + 1 := by
  rw [arrayUnion]
  split
  · omega
  · simp

/-- C4: capacity is an invariant of creation and joining — `createRoom` starts
a room with exactly one player and `maxPlayers = 10`; `joinRoom` rejects a new
identity with the room-full error whenever `players.length ≥ maxPlayers`, and
every successful join leaves `players.length ≤ maxPlayers` (with `maxPlayers`
unchanged). -/
theorem C4_capacity_preserved (room : GameRoom)
    (hcap : room.players.length ≤ room.maxPlayers)
    (u : User) (nm rn : String) (sIn : SettingsInput) (t : Nat) (rand : List Nat) :
    (createRoom u nm rn sIn t rand).maxPlayers = 10 ∧
    (createRoom u nm rn sIn t rand).players.length = 1 ∧
    (createRoom u nm rn sIn t rand).players.length ≤
      (createRoom u nm rn sIn t rand).maxPlayers ∧
    (room.players.find? (fun p => p.id == u.uid) = none →
      room.maxPlayers ≤ room.players.length →
      joinRoom room u nm t = Except.error RoomError.roomFull) ∧
    (∀ r', joinRoom room u nm t = Except.ok r' →
      r'.maxPlayers = room.maxPlayers ∧ r'.players.length ≤ r'.maxPlayers) := by
  refine ⟨rfl, rfl, by show (1 : Nat) ≤ 10; decide, ?_, ?_⟩
  · intro h1 h2
    simp only [joinRoom, h1, Option.isNone_none]
    rw [if_pos ⟨trivial, h2⟩]
  · intro r' h
    cases hfind : room.players.find? (fun p => p.id == u.uid) with
    | some ep =>
        simp only [joinRoom, hfind] at h
        split at h
        · cases h
        · cases h
          refine ⟨rfl, ?_⟩
          have hmem : ep ∈ room.players := List.mem_of_find?_eq_some hfind
          have hlt := length_arrayRemove_lt hmem
          have hle := length_arrayUnion_le (arrayRemove room.players ep)
            (rejoinPlayer u nm t ep)
          show (arrayUnion (arrayRemove room.players ep)
            (rejoinPlayer u nm t ep)).length ≤ room.maxPlayers
          omega
    | none =>
        simp only [joinRoom, hfind, Option.isNone_none] at h
        split at h
        · cases h
        · next hfull =>
          split at h
          · cases h
          · cases h
            refine ⟨rfl, ?_⟩
            have hlt : room.players.length < room.maxPlayers := by
              rcases Nat.lt_or_ge room.players.length room.maxPlayers with hl | hg
              · exact hl
              · exact absurd ⟨trivial, hg⟩ hfull
            have hle := length_arrayUnion_le room.players
              (createPlayerFromUser u nm false t)
            show (arrayUnion room.players
              (createPlayerFromUser u nm false t)).length ≤ room.maxPlayers
            omega

/-- Witness for C4: the full ten-player room rejects a new identity with the
room-full error, while the concrete three-player room accepts one. -/
theorem C4_witness :
    (createRoom (mkUser "Z") "Z" "x" {} 0 []).maxPlayers = 10 ∧
    roomTen.players.length ≤ roomTen.maxPlayers ∧
    joinRoom roomTen (mkUser "Z") "Z" 20 = Except.error RoomError.roomFull ∧
    (∀ r', joinRoom roomTen (mkUser "Z") "Z" 20 = Except.ok r' →
      r'.maxPlayers = roomTen.maxPlayers ∧ r'.players.length ≤ r'.maxPlayers) :=
  ⟨(C4_capacity_preserved roomTen (by decide) (mkUser "Z") "Z" "x" {} 20 []).1,
   by decide,
   (C4_capacity_preserved roomTen (by decide) (mkUser "Z") "Z" "x" {} 20 []).2.2.2.1
     (by decide) (by decide),
   (C4_capacity_preserved roomTen (by decide) (mkUser "Z") "Z" "x" {} 20 []).2.2.2.2⟩

/-- Started room at full capacity, for exercising the rejoin path. -/
def roomTenStarted : GameRoom := { roomTen with status := GameStatus.in_progress }

/-- The stored record of player P3 inside `roomTen`. -/
def p3 : Player := mkPlayer "P3" false 3 false

/-- C5: a join by an identity already present is a rejoin — it always succeeds
(no capacity or status hypothesis appears below, so it holds even for a full or
started room), rewrites that player's record with the new name and the user's
current profile and anonymity fields while keeping `isReady`, `joinedAt` and
`isHost` from the stored record, and keeps every other player's record. -/
theorem C5_joinRoom_rejoin (room : GameRoom) (u : User) (nm : String) (t : Nat)
    (ep : Player) (hnd : (room.players.map Player.id).Nodup)
    (hfind : room.players.find? (fun p => p.id == u.uid) = some ep) :
    joinRoom room u nm t = Except.ok { room with
      players :=
        room.players.filter (fun p => !(p == ep)) ++ [rejoinPlayer u nm t ep] } ∧
    (rejoinPlayer u nm t ep).isReady = ep.isReady ∧
    (rejoinPlayer u nm t ep).joinedAt = ep.joinedAt ∧
    (rejoinPlayer u nm t ep).isHost = ep.isHost ∧
    (rejoinPlayer u nm t ep).id = u.uid ∧
    (rejoinPlayer u nm t ep).name = nm ∧
    (rejoinPlayer u nm t ep).displayName = u.displayName ∧
    (rejoinPlayer u nm t ep).email = u.email ∧
    (rejoinPlayer u nm t ep).photoURL = u.photoURL ∧
    (rejoinPlayer u nm t ep).isAnonymous = u.isAnonymous ∧
    (∀ q ∈ room.players, q ≠ ep →
      q ∈ room.players.filter (fun p => !(p == ep)) ++ [rejoinPlayer u nm t ep]) := by
  refine ⟨joinRoom_rejoin_eq room u nm t ep hnd hfind, rfl, rfl, rfl, rfl, rfl,
    rfl, rfl, rfl, rfl, ?_⟩
  intro q hq hqne
  apply List.mem_append_left
  exact List.mem_filter.mpr ⟨hq, by simp [hqne]⟩

/-- Witness for C5: P3 rejoins the full, already started ten-player room under
a new name; the call succeeds and P3's readiness, join time and host flag
survive. -/
theorem C5_witness :
    joinRoom roomTenStarted (mkUser "P3") "Pat" 99 = Except.ok { roomTenStarted with
      players :=
        roomTenStarted.players.filter (fun p => !(p == p3)) ++
          [rejoinPlayer (mkUser "P3") "Pat" 99 p3] } ∧
    (rejoinPlayer (mkUser "P3") "Pat" 99 p3).isReady = p3.isReady ∧
    (rejoinPlayer (mkUser "P3") "Pat" 99 p3).joinedAt = p3.joinedAt ∧
    (rejoinPlayer (mkUser "P3") "Pat" 99 p3).isHost = p3.isHost :=
  ⟨(C5_joinRoom_rejoin roomTenStarted (mkUser "P3") "Pat" 99 p3
      (by decide) (by decide)).1,
   (C5_joinRoom_rejoin roomTenStarted (mkUser "P3") "Pat" 99 p3
      (by decide) (by decide)).2.1,
   (C5_joinRoom_rejoin roomTenStarted (mkUser "P3") "Pat" 99 p3
      (by decide) (by decide)).2.2.1,
   (C5_joinRoom_rejoin roomTenStarted (mkUser "P3") "Pat" 99 p3
      (by decide) (by decide)).2.2.2.1⟩

/-- C10: calling `setPlayerReady` for an identity that is not in the room does
not raise an error on an existing room — the per-player map matches nothing, so
every player record is written back unchanged, and the only possible effect is
the boundary status transition computed from the unchanged player list. -/
theorem C10_setPlayerReady_absent (room : GameRoom) (pid : String) (r : Bool)
    (habs : room.players.find? (fun p => p.id == pid) = none) :
    setPlayerReadyStore (some room) pid r =
      Except.ok (setPlayerReady room pid r) ∧
    (setPlayerReady room pid r).players = room.players ∧
    (room.status = GameStatus.waiting →
      (setPlayerReady room pid r).status =
        (if (room.players.all (fun p => p.isReady) &&
            decide (room.minPlayers ≤ room.players.length)) = true then
          GameStatus.ready else GameStatus.waiting)) ∧
    (room.status = GameStatus.ready →
      (setPlayerReady room pid r).status =
        (if (room.players.all (fun p => p.isReady) &&
            decide (room.minPlayers ≤ room.players.length)) = true then
          GameStatus.ready else GameStatus.waiting)) ∧
    (room.status ≠ GameStatus.waiting → room.status ≠ GameStatus.ready →
      (setPlayerReady room pid r).status = room.status) := by
  have hrp : readyPlayers room pid r = room.players := by
    rw [readyPlayers]
    have hpt : ∀ p ∈ room.players,
        (if p.id == pid then { p with isReady := r } else p) = p := by
      intro p hp
      rw [if_neg]
      simp only [beq_iff_eq]
      exact find?_id_none habs p hp
    rw [List.map_congr_left hpt, List.map_id']
  refine ⟨rfl, ?_, ?_, ?_, ?_⟩
  · rw [setPlayerReady_players_eq, hrp]
  · intro hw
    simp only [setPlayerReady, hrp, hw]
    rcases Bool.eq_false_or_eq_true
        (room.players.all (fun p => p.isReady)) with hA | hA <;>
      rcases Bool.eq_false_or_eq_true
          (decide (room.minPlayers ≤ room.players.length)) with hQ | hQ <;>
        simp [hA, hQ]
  · intro hr
    simp only [setPlayerReady, hrp, hr]
    rcases Bool.eq_false_or_eq_true
        (room.players.all (fun p => p.isReady)) with hA | hA <;>
      rcases Bool.eq_false_or_eq_true
          (decide (room.minPlayers ≤ room.players.length)) with hQ | hQ <;>
        simp [hA, hQ]
  · intro h1 h2
    have e1 : (room.status == GameStatus.waiting) = false :=
      beq_eq_false_iff_ne.mpr h1
    have e2 : (room.status == GameStatus.ready) = false :=
      beq_eq_false_iff_ne.mpr h2
    simp [setPlayerReady, e1, e2]

/-- Witness for C10: toggling the absent identity Z in the five-player waiting
room throws no error, leaves the players untouched, and keeps status `waiting`
because the unchanged list is not all-ready. -/
theorem C10_witness :
    setPlayerReadyStore (some roomFive) "Z" true =
      Except.ok (setPlayerReady roomFive "Z" true) ∧
    (setPlayerReady roomFive "Z" true).players = roomFive.players ∧
    (setPlayerReady roomFive "Z" true).status =
      (if (roomFive.players.all (fun p => p.isReady) &&
          decide (roomFive.minPlayers ≤ roomFive.players.length)) = true then
        GameStatus.ready else GameStatus.waiting) :=
  ⟨(C10_setPlayerReady_absent roomFive "Z" true (by decide)).1,
   (C10_setPlayerReady_absent roomFive "Z" true (by decide)).2.1,
   (C10_setPlayerReady_absent roomFive "Z" true (by decide)).2.2.1 rfl⟩

/-- Counterexample to C2 as stated: in the three-player room [A(host,t=0),
B(t=1), C(t=2)], B rejoins (the rejoin re-append moves B to the array end while
keeping joinedAt = 1), then host A leaves. The host transfer picks the first
remaining array element, C: the resulting room has `hostId = "C"` and host
record C with `joinedAt = 2`, although the remaining player B joined earlier
(`joinedAt = 1`). So `isHost` does not transfer to the earliest-joined
remaining player. -/
theorem C2_counterexample :
    ((joinRoom roomABC (mkUser "B") "Bee" 10).toOption.bind
        (fun r => leaveRoom r "A")).map
      (fun r => (r.hostId, r.players.map (fun p => (p.id, p.joinedAt, p.isHost)))) =
      some ("C", [("C", 2, true), ("B", 1, false)]) := by decide

/-- C2 amended: `leaveRoom` for an absent identity is a no-op; a sole-player
host leave deletes the room; otherwise a host leave transfers `isHost` to the
first remaining player in array order (which is the earliest-joined remaining
player only when no rejoin has re-appended a record) and updates `hostId` to
that player's id atomically with the removal. -/
theorem C2_leaveRoom_amended (room : GameRoom) (pid : String) :
    (room.players.find? (fun p => p.id == pid) = none →
      leaveRoom room pid = some room) ∧
    (∀ ep, room.players.find? (fun p => p.id == pid) = some ep →
      ep.isHost = true → room.players.length = 1 → leaveRoom room pid = none) ∧
    (∀ ep nh, room.players.find? (fun p => p.id == pid) = some ep →
      ep.isHost = true → room.players.length ≠ 1 →
      room.players.find? (fun p => p.id != pid) = some nh →
      ∃ r', leaveRoom room pid = some r' ∧ r'.hostId = nh.id ∧
        r'.players = (room.players.map
            (fun p => { p with isHost := p.id == nh.id })).filter
          (fun p => p.id != pid)) := by
  refine ⟨leaveRoom_absent_eq room pid, ?_, ?_⟩
  · intro ep h1 h2 h3
    exact leaveRoom_sole_eq room pid ep h1 h2 h3
  · intro ep nh h1 h2 h3 h4
    exact ⟨_, leaveRoom_transfer_eq room pid ep nh h1 h2 h3 h4, rfl, rfl⟩

/-- Witness for C2 amended: leaving by the absent Z changes nothing, and host
A leaving [A, B, C] hands `isHost` and `hostId` to B, the first remaining
array element. -/
theorem C2_witness :
    leaveRoom roomABC "Z" = some roomABC ∧
    (∃ r', leaveRoom roomABC "A" = some r' ∧
      r'.hostId = (mkPlayer "B" false 1 false).id ∧
      r'.players = (roomABC.players.map
          (fun p => { p with isHost := p.id == (mkPlayer "B" false 1 false).id })).filter
        (fun p => p.id != "A")) :=
  ⟨(C2_leaveRoom_amended roomABC "Z").1 (by decide),
   (C2_leaveRoom_amended roomABC "A").2.2 (mkPlayer "A" true 0 false)
     (mkPlayer "B" false 1 false) (by decide) (by decide) (by decide) (by decide)⟩

/-- C6 failing-input evaluation: with a room coded "AAAAAA" already in the
store and the injected randomness yielding index 0 six times, `createRoom`
generates "AAAAAA" again and `addDoc` persists it unconditionally — the store
ends up with two rooms sharing the gameCode, with no regeneration, no retry
and no code-exhausted failure anywhere in the source. -/
theorem C6_duplicate_gameCode :
    generateGameCode [0, 0, 0, 0, 0, 0] = "AAAAAA" ∧
    roomABC.gameCode = "AAAAAA" ∧
    (createRoomStore [roomABC] (mkUser "H") "Hank" "second" {} 5
        [0, 0, 0, 0, 0, 0]).map GameRoom.gameCode = ["AAAAAA", "AAAAAA"] := by
  decide

/-- Counterexample to C7 as stated: `kickPlayer` has no status check — in the
two-player room whose status is `in_progress`, the host's kick of B succeeds
and shrinks the player list to [H]. -/
theorem C7_counterexample :
    roomStarted.status = GameStatus.in_progress ∧
    roomStarted.players.map Player.id = ["H", "B"] ∧
    (kickPlayer roomStarted "H" "B").toOption.map
      (fun r => r.players.map Player.id) = some ["H"] := by
  decide

/-- C7 amended: once a room's status is neither `waiting` nor `ready`, a join
by a new identity fails and `deleteRoom` fails; but `kickPlayer` is not
status-gated — a valid host kick still removes the target — and `leaveRoom`
still works and never reverts the status. -/
theorem C7_started_membership (room : GameRoom) (u : User) (nm : String)
    (t : Nat) (pid rid tid : String)
    (h1 : room.status ≠ GameStatus.waiting)
    (h2 : room.status ≠ GameStatus.ready) :
    (room.players.find? (fun p => p.id == u.uid) = none →
      ∃ e, joinRoom room u nm t = Except.error e) ∧
    (∃ e, deleteRoom room rid = Except.error e) ∧
    (∀ r', leaveRoom room pid = some r' → r'.status = room.status) ∧
    (∀ tp, room.hostId = rid → rid ≠ tid →
      room.players.find? (fun p => p.id == tid) = some tp →
      kickPlayer room rid tid = Except.ok { room with
        players := room.players.filter (fun p => !(p == tp)) }) := by
  refine ⟨?_, ?_, ?_, ?_⟩
  · intro hfind
    by_cases hcap : room.maxPlayers ≤ room.players.length
    · refine ⟨RoomError.roomFull, ?_⟩
      simp only [joinRoom, hfind, Option.isNone_none]
      rw [if_pos ⟨trivial, hcap⟩]
    · refine ⟨RoomError.alreadyStarted, ?_⟩
      simp only [joinRoom, hfind, Option.isNone_none]
      rw [if_neg (fun hc => hcap hc.2), if_pos ⟨h1, h2⟩]
  · by_cases hh : room.hostId = rid
    · refine ⟨RoomError.cannotDeleteAfterStart, ?_⟩
      simp only [deleteRoom]
      rw [if_neg (fun hc => hc hh), if_pos ⟨h1, h2⟩]
    · refine ⟨RoomError.onlyHostCanDelete, ?_⟩
      simp only [deleteRoom]
      rw [if_pos hh]
  · intro r' h
    cases hfind : room.players.find? (fun p => p.id == pid) with
    | none =>
        rw [leaveRoom_absent_eq room pid hfind] at h
        cases h
        rfl
    | some ep =>
        by_cases hhost : ep.isHost = true
        · by_cases hlen : room.players.length = 1
          · rw [leaveRoom_sole_eq room pid ep hfind hhost hlen] at h
            cases h
          · cases hnh : room.players.find? (fun p => p.id != pid) with
            | none =>
                rw [leaveRoom_noNewHost_eq room pid ep hfind hhost hlen hnh] at h
                cases h
                rfl
            | some nh =>
                rw [leaveRoom_transfer_eq room pid ep nh hfind hhost hlen hnh] at h
                cases h
                rfl
        · have hhost' : ep.isHost = false := by
            revert hhost
            cases ep.isHost <;> simp
          rw [leaveRoom_nonhost_eq room pid ep hfind hhost'] at h
          cases h
          rfl
  · intro tp ha hb hfind
    exact kickPlayer_ok_eq room rid tid tp ha hb hfind

/-- Witness for C7 amended: in the running two-player room, new identity Z
cannot join, the host cannot delete, B's leave keeps status `in_progress`, and
the host's kick of B still succeeds. -/
theorem C7_witness :
    (∃ e, joinRoom roomStarted (mkUser "Z") "Z" 9 = Except.error e) ∧
    (∃ e, deleteRoom roomStarted "H" = Except.error e) ∧
    (∀ r', leaveRoom roomStarted "B" = some r' → r'.status = roomStarted.status) ∧
    kickPlayer roomStarted "H" "B" = Except.ok { roomStarted with
      players := roomStarted.players.filter
        (fun p => !(p == mkPlayer "B" false 1 true)) } :=
  ⟨(C7_started_membership roomStarted (mkUser "Z") "Z" 9 "B" "H" "B"
      (by decide) (by decide)).1 (by decide),
   (C7_started_membership roomStarted (mkUser "Z") "Z" 9 "B" "H" "B"
      (by decide) (by decide)).2.1,
   (C7_started_membership roomStarted (mkUser "Z") "Z" 9 "B" "H" "B"
      (by decide) (by decide)).2.2.1,
   (C7_started_membership roomStarted (mkUser "Z") "Z" 9 "B" "H" "B"
      (by decide) (by decide)).2.2.2 (mkPlayer "B" false 1 true)
      rfl (by decide) (by decide)⟩

/-- C9 failing-input evaluation: `setPlayerReady` persists the whole players
array computed from its read snapshot (`readyPlayers`), not an element-level
update. Two concurrent calls that both read the two-player room — one marking
A ready, one marking B ready — issue whole-array writes; after A's write lands,
B's write (still computed from the old snapshot) overwrites it, and A's
readiness is lost. The first two conjuncts pin the written array to the one
`setPlayerReady` computes; the last two exhibit the lost update. -/
theorem C9_lost_update :
    (setPlayerReady roomAB "A" true).players = readyPlayers roomAB "A" true ∧
    (setPlayerReady roomAB "B" true).players = readyPlayers roomAB "B" true ∧
    ((applyPlayersWrite roomAB (readyPlayers roomAB "A" true)).players.find?
        (fun p => p.id == "A")).map Player.isReady = some true ∧
    ((applyPlayersWrite (applyPlayersWrite roomAB (readyPlayers roomAB "A" true))
        (readyPlayers roomAB "B" true)).players.find?
        (fun p => p.id == "A")).map Player.isReady = some false := by
  decide
